import Mathlib

/-!
Verification of `rocket_auth`'s username validator (`src/user/username.rs`).

The source is a single pure function:

  pub fn validate_username<'a, T>(val: T) -> bool where T: Into<Cow<'a, str>>

which converts its argument into a `Cow<str>`, rejects the empty string,
rejects strings whose `validator::HasLen::length` (the count of Unicode
scalar values, i.e. `chars().count()`) exceeds 64, and finally requires a
match of the compiled pattern

  EMAIL_USER_RE = ^(?i)[a-z0-9.!#$%&'*+/=?^_`{|}~-]+\z

We model a Rust `str` as a Lean `String`, whose `data` field is exactly the
sequence of Unicode scalar values (`Char`), matching Rust's `chars()` view.

The regex is anchored at both ends (`^` ... `\z`), so `is_match` holds iff
the whole input is one or more characters of the class.  The `(?i)` flag in
the `regex` crate performs Unicode *simple case folding* (the `u` flag is on
by default), so the class `[a-z...]` matches not only `a-z` and `A-Z` but
also the two further characters whose simple case fold lands in `a-z`:
U+017F LATIN SMALL LETTER LONG S (folds to `s`) and U+212A KELVIN SIGN
(folds to `k`).  Digits and the punctuation of the class fold to themselves
and nothing else folds onto them.
-/

/-- Code points of the punctuation characters of the regex class, in the
order they appear in the pattern: `.` `!` `#` `$` `%` `&` `'` `*` `+` `/`
`=` `?` `^` `_` backtick `{` `|` `}` `~` `-`. -/
def emailUserPunct : List Nat :=
  [46, 33, 35, 36, 37, 38, 39, 42, 43, 47, 61, 63, 94, 95, 96, 123, 124, 125, 126, 45]

/-- Whether a scalar value is matched by the class
`[a-z0-9.!#$%&'*+/=?^_\x60{|}~-]` under the `(?i)` flag of the `regex`
crate: the ASCII class together with its closure under Unicode simple case
folding, which adds `A-Z`, U+017F (long s) and U+212A (Kelvin sign). -/
def emailUserCharMatches (c : Char) : Bool :=
  (97 ≤ c.toNat && c.toNat ≤ 122) ||
  (65 ≤ c.toNat && c.toNat ≤ 90) ||
  (48 ≤ c.toNat && c.toNat ≤ 57) ||
  emailUserPunct.contains c.toNat ||
  c.toNat = 0x17F || c.toNat = 0x212A

/-- `EMAIL_USER_RE.is_match(s)`: the pattern is anchored at the start (`^`)
and at the very end of the haystack (`\z`) and asks for one or more class
characters, so a match exists iff `s` is non-empty and every scalar value of
`s` is matched by the class. -/
def EMAIL_USER_RE_is_match (s : String) : Bool :=
  !s.data.isEmpty && s.data.all emailUserCharMatches

/-- `validator::HasLen::length` for string slices: `self.chars().count()`,
the number of Unicode scalar values (not bytes). -/
def hasLenStr (s : String) : Nat := s.data.length

/-- The body of `validate_username` after `val.into()` has produced the
`Cow<str>`: reject empty input, then input of more than 64 scalar values,
then input the anchored pattern does not match; otherwise accept. -/
def validate_username (s : String) : Bool :=
  if s.data.isEmpty then false
  else if hasLenStr s > 64 then false
  else if !(EMAIL_USER_RE_is_match s) then false
  else true

/-- The four caller-side representations accepted by the generic parameter
`T: Into<Cow<'a, str>>` of `validate_username`: a borrowed `&str`, an owned
`String`, and the two `Cow` variants.  Each carries the same underlying
character sequence. -/
inductive UsernameInput where
  | strSlice : String → UsernameInput
  | ownedString : String → UsernameInput
  | cowBorrowed : String → UsernameInput
  | cowOwned : String → UsernameInput

/-- The character content of an input, i.e. the `str` that the `Cow`
produced by `val.into()` dereferences to. -/
def UsernameInput.content : UsernameInput → String
  | .strSlice s => s
  | .ownedString s => s
  | .cowBorrowed s => s
  | .cowOwned s => s

/-- The generic `validate_username` entry point: `val.into()` converts the
argument to a `Cow<str>` and the body reads it through `Deref<Target=str>`. -/
def validate_username_into (v : UsernameInput) : Bool :=
  validate_username v.content

/-- The character set named by the specification,
`[a-zA-Z0-9.!#$%&'*+/=?^_\x60{|}~-]`, stated from the spec's words so that
it can be compared with the code's case-folded class. -/
def specAllowedChar (c : Char) : Bool :=
  (97 ≤ c.toNat && c.toNat ≤ 122) ||
  (65 ≤ c.toNat && c.toNat ≤ 90) ||
  (48 ≤ c.toNat && c.toNat ≤ 57) ||
  emailUserPunct.contains c.toNat

/-- ASCII lowercasing of one scalar value, as in the spec's phrase
"the ASCII-lowercase of s": `A-Z` maps to `a-z`, everything else is kept. -/
def asciiLowerChar (c : Char) : Char :=
  if 65 ≤ c.toNat ∧ c.toNat ≤ 90 then Char.ofNat (c.toNat + 32) else c

/-- ASCII lowercasing of a string, scalar value by scalar value. -/
def asciiLowerString (s : String) : String := String.mk (s.data.map asciiLowerChar)

/-- Number of bytes of the UTF-8 encoding of one scalar value. -/
def utf8CharLen (c : Char) : Nat :=
  if c.toNat < 0x80 then 1
  else if c.toNat < 0x800 then 2
  else if c.toNat < 0x10000 then 3
  else 4

/-- Number of bytes of the UTF-8 encoding of a string. -/
def utf8ByteLength (s : String) : Nat := (s.data.map utf8CharLen).sum

/-- The one-character string holding U+017F LATIN SMALL LETTER LONG S. -/
def longSString : String := String.mk [Char.ofNat 0x17F]

/-! ## Helper lemmas (shared between claims) -/

/-- Characterization of acceptance: `validate_username` returns `true` iff
the input is non-empty, has at most 64 scalar values, and every scalar value
is matched by the (case-folded) class. -/
theorem validate_username_eq_true_iff (s : String) :
    validate_username s = true ↔
      s.data ≠ [] ∧ s.data.length ≤ 64 ∧ s.data.all emailUserCharMatches = true := by
  unfold validate_username EMAIL_USER_RE_is_match hasLenStr
  by_cases h : s.data.isEmpty = true
  · rw [if_pos h]
    simp [List.isEmpty_iff.mp h]
  · rw [if_neg h]
    rw [List.isEmpty_iff] at h
    by_cases h64 : s.data.length > 64
    · rw [if_pos h64]
      constructor
      · intro hf
        exact absurd hf (by simp)
      · rintro ⟨-, h2, -⟩
        omega
    · rw [if_neg h64]
      by_cases hm : s.data.all emailUserCharMatches = true
      · have : (!(!s.data.isEmpty && s.data.all emailUserCharMatches)) = false := by
          simp [List.isEmpty_iff, h, hm]
        rw [this, if_neg (by simp)]
        exact ⟨fun _ => ⟨h, by omega, hm⟩, fun _ => rfl⟩
      · have : (!(!s.data.isEmpty && s.data.all emailUserCharMatches)) = true := by
          cases hall : s.data.all emailUserCharMatches
          · simp [hall]
          · exact absurd hall hm
        rw [if_pos this]
        constructor
        · intro hf
          exact absurd hf (by simp)
        · rintro ⟨-, -, h3⟩
          exact absurd h3 hm

/-- Every character of the spec's ASCII class is matched by the code's
case-folded class. -/
theorem specAllowedChar_subset (c : Char) (h : specAllowedChar c = true) :
    emailUserCharMatches c = true := by
  simp only [specAllowedChar, Bool.or_eq_true] at h
  simp only [emailUserCharMatches, Bool.or_eq_true]
  tauto

/-- `Char.ofNat` on a valid code point recovers that code point. -/
theorem char_toNat_ofNat {n : Nat} (h : n.isValidChar) : (Char.ofNat n).toNat = n := by
  simp only [Char.ofNat, h, dif_pos]
  rfl

/-- ASCII lowercasing does not change membership in the case-folded class. -/
theorem emailUserCharMatches_asciiLower (c : Char) :
    emailUserCharMatches (asciiLowerChar c) = emailUserCharMatches c := by
  unfold asciiLowerChar
  by_cases h : 65 ≤ c.toNat ∧ c.toNat ≤ 90
  · rw [if_pos h]
    have hv : (c.toNat + 32).isValidChar := Or.inl (by omega)
    have ht : (Char.ofNat (c.toNat + 32)).toNat = c.toNat + 32 := char_toNat_ofNat hv
    have hl : emailUserCharMatches (Char.ofNat (c.toNat + 32)) = true := by
      unfold emailUserCharMatches
      simp only [ht, Bool.or_eq_true, Bool.and_eq_true, decide_eq_true_eq]
      left; left; left; left; left
      exact ⟨by omega, by omega⟩
    have hr : emailUserCharMatches c = true := by
      unfold emailUserCharMatches
      simp only [Bool.or_eq_true, Bool.and_eq_true, decide_eq_true_eq]
      left; left; left; left; right
      exact ⟨by omega, by omega⟩
    rw [hl, hr]
  · rw [if_neg h]

/-- A string all of whose scalar values are ASCII has as many UTF-8 bytes as
scalar values. -/
theorem utf8_sum_of_ascii (l : List Char)
    (h : l.all (fun c => c.toNat ≤ 127) = true) :
    (l.map utf8CharLen).sum = l.length := by
  induction l with
  | nil => rfl
  | cons c l ih =>
      simp only [List.all_cons, Bool.and_eq_true, decide_eq_true_eq] at h
      have hc : utf8CharLen c = 1 := by
        unfold utf8CharLen
        have : c.toNat < 0x80 := by omega
        simp [this]
      simp only [List.map_cons, List.sum_cons, List.length_cons, hc, ih h.2]
      omega

/-! ## Claims -/

/-- C1 (counterexample): the full contract as stated by the claim fails.
The one-character string U+017F (long s) is accepted by `validate_username`,
yet it does not consist of characters of the claimed ASCII set
`[a-zA-Z0-9.!#$%&'*+/=?^_\x60{|}~-]`. -/
theorem C1_counterexample :
    ¬ (validate_username longSString = true ↔
        (longSString.data ≠ [] ∧ longSString.data.length ≤ 64 ∧
          longSString.data.all specAllowedChar = true)) := by
  decide

/-- C1 (amended): for every input string `s`, `validate_username s` returns
`true` iff `s` is non-empty, has at most 64 Unicode scalar values, and every
scalar value of `s` belongs to the regex class closed under Unicode simple
case folding — the ASCII set `[a-zA-Z0-9.!#$%&'*+/=?^_\x60{|}~-]` together
with U+017F and U+212A; the three checks short-circuit in that order. -/
theorem C1_full_contract (s : String) :
    validate_username s = true ↔
      s.data ≠ [] ∧ s.data.length ≤ 64 ∧ s.data.all emailUserCharMatches = true :=
  validate_username_eq_true_iff s

/-- C1 (witness): the amended contract evaluated at the concrete input
U+017F, whose acceptance it decides. -/
theorem C1_full_contract_witness : validate_username longSString = true :=
  (C1_full_contract longSString).mpr (by decide)

/-- C2: inputs longer than 64 scalar values are rejected; for inputs of at
most 64 scalar values the length rule never fires, i.e. the result is
exactly that of the emptiness and pattern checks (regardless of UTF-8 byte
count); and a concrete 33-scalar-value, 66-UTF-8-byte input is accepted
while 64 allowed characters are accepted. -/
theorem C2_length_rule :
    (∀ s : String, 64 < s.data.length → validate_username s = false) ∧
    (∀ s : String, s.data.length ≤ 64 →
      validate_username s = (!s.data.isEmpty && EMAIL_USER_RE_is_match s)) ∧
    (utf8ByteLength (String.mk (List.replicate 33 (Char.ofNat 0x17F))) = 66 ∧
      (String.mk (List.replicate 33 (Char.ofNat 0x17F))).data.length = 33 ∧
      validate_username (String.mk (List.replicate 33 (Char.ofNat 0x17F))) = true) ∧
    validate_username (String.mk (List.replicate 64 'a')) = true := by
  refine ⟨?_, ?_, by decide, by decide⟩
  · intro s h
    unfold validate_username hasLenStr
    by_cases he : s.data.isEmpty = true
    · rw [if_pos he]
    · rw [if_neg he, if_pos h]
  · intro s h
    unfold validate_username hasLenStr
    by_cases he : s.data.isEmpty = true
    · rw [if_pos he]
      simp [EMAIL_USER_RE_is_match, he]
    · have he' : s.data.isEmpty = false := Bool.eq_false_iff.mpr he
      rw [if_neg he, if_neg (by omega : ¬ s.data.length > 64)]
      cases hm : EMAIL_USER_RE_is_match s
      · simp [hm, he']
      · simp [hm, he']

/-- C2 (witness): the 65-`a` string is rejected, a 64-scalar-value string is
accepted even though its byte count alone would not decide it. -/
theorem C2_length_rule_witness :
    validate_username (String.mk (List.replicate 65 'a')) = false :=
  C2_length_rule.1 (String.mk (List.replicate 65 'a')) (by decide)

/-- C3: every input built only from characters of the ASCII class
`[A-Za-z0-9.!#$%&'*+/=?^_\x60{|}~-]` whose scalar-value count is between 1
and 64 is accepted. -/
theorem C3_allowed_accepted (s : String)
    (h1 : 1 ≤ s.data.length) (h64 : s.data.length ≤ 64)
    (hall : s.data.all specAllowedChar = true) :
    validate_username s = true := by
  rw [validate_username_eq_true_iff]
  refine ⟨?_, h64, ?_⟩
  · intro hnil
    rw [hnil] at h1
    simp at h1
  · simp only [List.all_eq_true] at hall ⊢
    exact fun c hc => specAllowedChar_subset c (hall c hc)

/-- C3 (witness): the concrete string "email" satisfies the hypotheses and
is accepted. -/
theorem C3_allowed_accepted_witness : validate_username "email" = true :=
  C3_allowed_accepted "email" (by decide) (by decide) (by decide)

/-- C4 (counterexample): the claim as stated fails.  The one-character
string U+017F contains a character outside the claimed ASCII set, yet
`validate_username` accepts it. -/
theorem C4_counterexample :
    longSString.data.all specAllowedChar = false ∧
      validate_username longSString = true := by
  decide

/-- C4 (amended): every input containing a scalar value outside the
case-folded class (the ASCII set plus U+017F and U+212A) is rejected, and
appending a trailing newline to any string yields a rejected input. -/
theorem C4_outside_class_rejected :
    (∀ s : String, s.data.any (fun c => !emailUserCharMatches c) = true →
      validate_username s = false) ∧
    (∀ s : String,
      validate_username (String.mk (s.data ++ [Char.ofNat 10])) = false) := by
  constructor
  · intro s h
    cases hv : validate_username s
    · rfl
    · exfalso
      have h3 := ((validate_username_eq_true_iff s).mp hv).2.2
      rw [List.any_eq_true] at h
      obtain ⟨c, hc, hp⟩ := h
      have hcm := List.all_eq_true.mp h3 c hc
      rw [hcm] at hp
      exact absurd hp (by decide)
  · intro s
    cases hv : validate_username (String.mk (s.data ++ [Char.ofNat 10]))
    · rfl
    · exfalso
      have h3 := ((validate_username_eq_true_iff _).mp hv).2.2
      have hmem : Char.ofNat 10 ∈ (String.mk (s.data ++ [Char.ofNat 10])).data := by
        show Char.ofNat 10 ∈ s.data ++ [Char.ofNat 10]
        simp
      have := List.all_eq_true.mp h3 _ hmem
      exact absurd this (by decide)

/-- C4 (witness): "abc@" contains a character outside the class and is
rejected, and "a" followed by a newline is rejected. -/
theorem C4_outside_class_rejected_witness :
    validate_username "abc@" = false ∧
      validate_username (String.mk ("a".data ++ [Char.ofNat 10])) = false :=
  ⟨C4_outside_class_rejected.1 "abc@" (by decide),
    C4_outside_class_rejected.2 "a"⟩

/-- C5: validation is invariant under ASCII lowercasing — for every string
`s`, the validator agrees on `s` and on its ASCII-lowercase image — and any
string of 1 to 64 uppercase ASCII letters is accepted. -/
theorem C5_ascii_case_insensitive :
    (∀ s : String,
      validate_username (asciiLowerString s) = validate_username s) ∧
    (∀ s : String, 1 ≤ s.data.length → s.data.length ≤ 64 →
      s.data.all (fun c => 65 ≤ c.toNat && c.toNat ≤ 90) = true →
      validate_username s = true) := by
  constructor
  · intro s
    have h1 := validate_username_eq_true_iff (asciiLowerString s)
    have h2 := validate_username_eq_true_iff s
    have hdata : (asciiLowerString s).data = s.data.map asciiLowerChar := rfl
    have hcomp : (emailUserCharMatches ∘ asciiLowerChar) = emailUserCharMatches :=
      funext emailUserCharMatches_asciiLower
    have hall : (s.data.map asciiLowerChar).all emailUserCharMatches
        = s.data.all emailUserCharMatches := by
      rw [List.all_map, hcomp]
    rw [hdata, hall, List.length_map] at h1
    have hne : (s.data.map asciiLowerChar ≠ []) ↔ (s.data ≠ []) := by
      simp
    cases hv : validate_username s
    · cases hl : validate_username (asciiLowerString s)
      · rfl
      · exfalso
        obtain ⟨a, b, c⟩ := h1.mp hl
        have : validate_username s = true := h2.mpr ⟨hne.mp a, b, c⟩
        rw [hv] at this
        exact absurd this (by decide)
    · cases hl : validate_username (asciiLowerString s)
      · exfalso
        obtain ⟨a, b, c⟩ := h2.mp hv
        have : validate_username (asciiLowerString s) = true :=
          h1.mpr ⟨hne.mpr a, b, c⟩
        rw [hl] at this
        exact absurd this (by decide)
      · rfl
  · intro s h1 h64 hall
    rw [validate_username_eq_true_iff]
    refine ⟨?_, h64, ?_⟩
    · intro hnil
      rw [hnil] at h1
      simp at h1
    · rw [List.all_eq_true] at hall ⊢
      intro c hc
      have hcu := hall c hc
      simp only [Bool.and_eq_true, decide_eq_true_eq] at hcu
      unfold emailUserCharMatches
      simp only [Bool.or_eq_true, Bool.and_eq_true, decide_eq_true_eq]
      left; left; left; left; right
      exact ⟨hcu.1, hcu.2⟩

/-- C5 (witness): the validator agrees on "ABC" and its lowercase image, and
"ABC" (three uppercase letters) is accepted. -/
theorem C5_ascii_case_insensitive_witness :
    validate_username (asciiLowerString "ABC") = validate_username "ABC" ∧
      validate_username "ABC" = true :=
  ⟨C5_ascii_case_insensitive.1 "ABC",
    C5_ascii_case_insensitive.2 "ABC" (by decide) (by decide) (by decide)⟩

/-- C6: `validate_username` is a total boolean-valued function: on every
input it returns either `false` or `true` (it is definable as a total pure
Lean function, so it terminates and has no error outcome). -/
theorem C6_total_boolean (s : String) :
    validate_username s = false ∨ validate_username s = true := by
  cases h : validate_username s
  · exact Or.inl rfl
  · exact Or.inr rfl

/-- C7: the concrete scenarios of the spec: "email", "weirder-email" and
"!def!xyz%abc" are accepted; the empty string, "abc@", "a " (trailing
space), "a" with a trailing newline, 65 repeated a's, and a quoted
"test@test" are rejected. -/
theorem C7_concrete_scenarios :
    validate_username "email" = true ∧
    validate_username "weirder-email" = true ∧
    validate_username "!def!xyz%abc" = true ∧
    validate_username "" = false ∧
    validate_username "abc@" = false ∧
    validate_username "a " = false ∧
    validate_username "a\n" = false ∧
    validate_username (String.mk (List.replicate 65 'a')) = false ∧
    validate_username "\"test@test\"" = false := by
  decide

/-- C8: the result depends only on the character content of the input:
any two of the four caller-side representations (borrowed slice, owned
string, either `Cow` variant) carrying the same characters validate
identically. -/
theorem C8_representation_independent (v w : UsernameInput)
    (h : v.content = w.content) :
    validate_username_into v = validate_username_into w := by
  unfold validate_username_into
  rw [h]

/-- C8 (witness): a borrowed slice "email" and an owned `Cow` "email"
validate identically. -/
theorem C8_representation_independent_witness :
    validate_username_into (UsernameInput.strSlice "email")
      = validate_username_into (UsernameInput.cowOwned "email") :=
  C8_representation_independent
    (UsernameInput.strSlice "email") (UsernameInput.cowOwned "email") rfl

/-- C9 (counterexample): the claim as stated fails.  The accepted input
U+017F is not ASCII: its UTF-8 byte length (2) differs from its count of
scalar values (1). -/
theorem C9_counterexample :
    validate_username longSString = true ∧
      ¬ utf8ByteLength longSString = longSString.data.length := by
  decide

/-- C9 (amended): every accepted input has between 1 and 64 scalar values,
all of them in the case-folded class (ASCII class plus U+017F and U+212A);
when the accepted input happens to be all-ASCII its UTF-8 byte length
equals its scalar-value count. -/
theorem C9_accepted_shape (s : String) (h : validate_username s = true) :
    1 ≤ s.data.length ∧ s.data.length ≤ 64 ∧
      s.data.all emailUserCharMatches = true ∧
      (s.data.all (fun c => c.toNat ≤ 127) = true →
        utf8ByteLength s = s.data.length) := by
  obtain ⟨hne, h64, hall⟩ := (validate_username_eq_true_iff s).mp h
  refine ⟨List.length_pos.mpr hne, h64, hall, fun ha => ?_⟩
  exact utf8_sum_of_ascii s.data ha

/-- C9 (witness): the accepted input "email" has the amended shape. -/
theorem C9_accepted_shape_witness :
    1 ≤ "email".data.length ∧ "email".data.length ≤ 64 ∧
      "email".data.all emailUserCharMatches = true ∧
      ("email".data.all (fun c => c.toNat ≤ 127) = true →
        utf8ByteLength "email" = "email".data.length) :=
  C9_accepted_shape "email" (by decide)

/-- C10: acceptance is closed under non-empty contiguous substrings: if
`validate_username s` is `true` and `t` is a non-empty infix of `s`, then
`validate_username t` is `true`. -/
theorem C10_substring_closed (s t : String)
    (hs : validate_username s = true) (hne : t.data ≠ [])
    (hsub : t.data <:+: s.data) :
    validate_username t = true := by
  obtain ⟨-, h64, hall⟩ := (validate_username_eq_true_iff s).mp hs
  obtain ⟨pre, suf, heq⟩ := hsub
  rw [validate_username_eq_true_iff]
  refine ⟨hne, ?_, ?_⟩
  · have hlen := congrArg List.length heq
    simp only [List.length_append] at hlen
    omega
  · rw [List.all_eq_true] at hall ⊢
    intro c hc
    refine hall c ?_
    rw [← heq]
    simp only [List.mem_append]
    left; right
    exact hc

/-- C10 (witness): "mai" is a non-empty infix of the accepted "email" and is
itself accepted. -/
theorem C10_substring_closed_witness : validate_username "mai" = true :=
  C10_substring_closed "email" "mai" (by decide) (by decide) (by decide)
